import Mathlib

/-!
# Verification of the v2vcommunication relay-and-correlation core

Shallow embedding of the relay core of `control_center_laptop.py` (the
latency-estimation arithmetic also appears verbatim in
`host_communicate.py`, `run_communication_loop`).  Wall-clock timestamps
and voltages are modelled as exact rationals; the `.2f` / `.4f` /
`strftime` renderings applied when a row is written to the spreadsheet
are presentation of these underlying values and are not re-modelled.
Network writes (`sendall`) have no effect on the logged state and are
not part of the state.
-/

namespace V2V

/-- An acknowledgement packet from the Actuation peer, as consumed by
`handle_sensor_pi` (`actuator_response['t2']`, `['t3']`,
`.get('voltage_set', 'N/A')`) and by `handle_actuator_pi`
(`status_packet.get('gps')`).  `voltage_set = none` models the absent /
`'N/A'` case. -/
structure Ack where
  t2 : ℚ
  t3 : ℚ
  voltage_set : Option ℚ
  gps : Option (ℚ × ℚ)
deriving Repr, DecidableEq

/-- A telemetry packet from the Measurement (sensor) peer, per
`sensor_agent_pi.py`: voltage, status string, optional GPS fix, and the
send timestamp `t1`. -/
structure SensorPacket where
  voltage : ℚ
  status : String
  gps : Option (ℚ × ℚ)
  timestamp : ℚ
deriving Repr, DecidableEq

/-- Output of the latency computation of `handle_sensor_pi`
(lines 183–185) / `run_communication_loop` (lines 104–106). -/
structure LatencyEstimate where
  offset_sec : ℚ
  corrected_t2_sec : ℚ
  true_latency_sec : ℚ
deriving Repr, DecidableEq

/-- The Latency Estimator:
`offset_sec = ((t2 - t1) + (t3 - t4)) / 2`;
`corrected_t2_sec = t2 - offset_sec`;
`true_latency_sec = corrected_t2_sec - t1`.
No clamping or validation is applied. -/
def latencyEstimator (t1 t2 t3 t4 : ℚ) : LatencyEstimate :=
  let offset_sec := ((t2 - t1) + (t3 - t4)) / 2
  let corrected_t2_sec := t2 - offset_sec
  let true_latency_sec := corrected_t2_sec - t1
  ⟨offset_sec, corrected_t2_sec, true_latency_sec⟩

/-- The ADC-voltage cell of a log row:
`f"{voltage:.4f}" if status == "Proper" else "Junk Value"`. -/
inductive VoltageCell
  | proper (v : ℚ)
  | junkValue
deriving Repr, DecidableEq

/-- One row of `self.log_data` (`new_log_row`, lines 193–202).  The
numeric fields carry the exact values whose formatted renderings the
code stores. -/
structure LogRow where
  packet_num : ℕ
  t1 : ℚ
  corrected_t2 : ℚ
  delay_ms : ℚ
  adc_voltage : VoltageCell
  status : String
  dac_voltage : Option ℚ
  gps : Option (ℚ × ℚ)
deriving Repr, DecidableEq

/-- The mutable state of `ControlCenterApp` relevant to the relay core.
`closed_conns` is a ghost field recording which connection handles have
had `.close()` called on them; connections are named by natural-number
ids.  `worksheet` records whether Google-Sheets setup succeeded. -/
structure CCState where
  is_session_active : Bool
  log_data : List LogRow
  latencies_ms : List ℚ
  response_queue : List Ack
  sensor_conn : Option ℕ
  actuator_conn : Option ℕ
  gps_actuator : Option (ℚ × ℚ)
  worksheet : Bool
  stop_threads : Bool
  closed_conns : List ℕ
deriving Repr, DecidableEq

/-- Operation `publish`: `self.response_queue.append(status_packet)` under the
queue lock — enqueue at the back, never dropping. -/
def publish (q : List Ack) (a : Ack) : List Ack := q ++ [a]

/-- Operation `awaitNext`: the poll loop's `self.response_queue.popleft()` —
remove and return the oldest element if the queue is nonempty,
otherwise signal timeout (`none`) leaving the queue unchanged. -/
def awaitNext (q : List Ack) : Option Ack × List Ack :=
  match q with
  | [] => (none, [])
  | a :: rest => (some a, rest)

/-- The correlation deadline: `while time.time() - start_wait < 2.0`
(seconds). -/
def awaitDeadlineSec : ℚ := 2

/-- Body of the `handle_actuator_pi` read loop for one parsed packet:
record the GPS fix and publish the acknowledgement. -/
def handleActuatorPacket (s : CCState) (a : Ack) : CCState :=
  { s with gps_actuator := a.gps
           response_queue := publish s.response_queue a }

/-- Method `start_session`: arm the active flag, clear `log_data`,
`latencies_ms`, and (under the queue lock) `response_queue`. -/
def startSession (s : CCState) : CCState :=
  { s with is_session_active := true
           log_data := []
           latencies_ms := []
           response_queue := [] }

/-- The report handed to the spreadsheet by `generate_final_report`:
the average latency of the summary block and the detailed rows. -/
structure Report where
  avg_latency_ms : ℚ
  rows : List LogRow
deriving Repr, DecidableEq

/-- Expression `statistics.mean(self.latencies_ms) if self.latencies_ms else 0`. -/
def averageLatency (l : List ℚ) : ℚ :=
  if l = [] then 0 else l.sum / l.length

/-- Method `generate_final_report`: skipped when the worksheet is unavailable
or `log_data` is empty; otherwise the mean latency plus the rows are
appended to the sheet. -/
def generateFinalReport (s : CCState) : Option Report :=
  if s.worksheet = false ∨ s.log_data = [] then none
  else some ⟨averageLatency s.latencies_ms, s.log_data⟩

/-- Method `stop_session`: a no-op when the session is already inactive;
otherwise disarm the flag and run `generate_final_report`. -/
def stopSession (s : CCState) : CCState × Option Report :=
  if s.is_session_active = false then (s, none)
  else
    let s' := { s with is_session_active := false }
    (s', generateFinalReport s')

/-- Construction of `new_log_row` from the packet, the matched
acknowledgement, the latency estimate, and `packet_num`. -/
def mkLogRow (pkt : SensorPacket) (a : Ack) (est : LatencyEstimate)
    (n : ℕ) : LogRow :=
  { packet_num := n
    t1 := pkt.timestamp
    corrected_t2 := est.corrected_t2_sec
    delay_ms := est.true_latency_sec * 1000
    adc_voltage :=
      if pkt.status = "Proper" then .proper pkt.voltage else .junkValue
    status := pkt.status
    dac_voltage := a.voltage_set
    gps := pkt.gps }

/-- One iteration of the `handle_sensor_pi` loop for a received packet:
if the session is active and an actuator peer is registered, the
command is forwarded and the loop waits (≤ `awaitDeadlineSec`) on the
correlator; `arrivals` are the acknowledgements the actuator reader
enqueues during the wait window, `t4` the wall-clock time at retrieval.
On success one latency sample and one log row (with
`packet_num = len(log_data) + 1`) are appended; on timeout nothing is.
If the session is inactive or no actuator is registered the packet has
no effect on the state. -/
def relayCycle (s : CCState) (pkt : SensorPacket) (arrivals : List Ack)
    (t4 : ℚ) : CCState :=
  if s.is_session_active && s.actuator_conn.isSome then
    let s1 := arrivals.foldl handleActuatorPacket s
    match awaitNext s1.response_queue with
    | (none, _) => s1
    | (some a, rest) =>
      let est := latencyEstimator pkt.timestamp a.t2 a.t3 t4
      let row := mkLogRow pkt a est (s1.log_data.length + 1)
      { s1 with
          response_queue := rest
          latencies_ms := s1.latencies_ms ++ [est.true_latency_sec * 1000]
          log_data := s1.log_data ++ [row] }
  else s

/-- Assignment `self.sensor_conn, self.sensor_addr = conn, addr` at the top of
`handle_sensor_pi`: the new connection becomes the registry entry for
the Measurement role, replacing any prior one. -/
def registerSensor (s : CCState) (c : ℕ) : CCState :=
  { s with sensor_conn := some c }

/-- Likewise for `handle_actuator_pi` and the Actuation role. -/
def registerActuator (s : CCState) (c : ℕ) : CCState :=
  { s with actuator_conn := some c }

/-- Ghost bookkeeping of `x.close()` on an optional handle. -/
def closeConn (h : Option ℕ) (closed : List ℕ) : List ℕ :=
  match h with
  | some c => closed ++ [c]
  | none => closed

/-- The `finally` block of `handle_sensor_pi`:
`self.sensor_conn.close(); self.sensor_conn = None`, then
`stop_session` is scheduled.  It closes and clears whatever connection
is *currently* registered for the role, not necessarily the one this
handler owned. -/
def sensorFinally (s : CCState) : CCState × Option Report :=
  stopSession { s with sensor_conn := none
                       closed_conns := closeConn s.sensor_conn s.closed_conns }

/-- The `finally` block of `handle_actuator_pi`. -/
def actuatorFinally (s : CCState) : CCState × Option Report :=
  stopSession { s with actuator_conn := none
                       closed_conns := closeConn s.actuator_conn s.closed_conns }

/-- Outcome of one `conn.recv` on the sensor channel: a parsed packet
(with the acks arriving during its correlation window and the retrieval
time `t4`), an orderly close (`recv` returned empty), a connection
reset / broken pipe (caught), or a malformed payload (uncaught
`json` error — the `finally` block still runs, the thread dies). -/
inductive SensorRead
  | data (pkt : SensorPacket) (arrivals : List Ack) (t4 : ℚ)
  | closed
  | connError
  | malformed
deriving Repr, DecidableEq

/-- Outcome of one `conn.recv` on the actuator channel. -/
inductive ActuatorRead
  | data (a : Ack)
  | closed
  | connError
  | malformed
deriving Repr, DecidableEq

/-- The `while not self.stop_threads.is_set()` read loop of
`handle_sensor_pi`: processes packets until the channel closes, errors
or yields a malformed payload, ignoring anything after that. -/
def sensorReaderLoop : CCState → List SensorRead → CCState
  | s, [] => s
  | s, .data pkt arrivals t4 :: rest =>
      sensorReaderLoop (relayCycle s pkt arrivals t4) rest
  | s, .closed :: _ => s
  | s, .connError :: _ => s
  | s, .malformed :: _ => s

/-- The read loop of `handle_actuator_pi`. -/
def actuatorReaderLoop : CCState → List ActuatorRead → CCState
  | s, [] => s
  | s, .data a :: rest => actuatorReaderLoop (handleActuatorPacket s a) rest
  | s, .closed :: _ => s
  | s, .connError :: _ => s
  | s, .malformed :: _ => s

/-- Handler `handle_sensor_pi` in full: register the connection, run the read
loop, then the `finally` cleanup (clear entry, auto-stop session). -/
def handleSensorPi (s : CCState) (c : ℕ) (reads : List SensorRead) :
    CCState × Option Report :=
  sensorFinally (sensorReaderLoop (registerSensor s c) reads)

/-- Handler `handle_actuator_pi` in full. -/
def handleActuatorPi (s : CCState) (c : ℕ) (reads : List ActuatorRead) :
    CCState × Option Report :=
  actuatorFinally (actuatorReaderLoop (registerActuator s c) reads)

/-- Loop `while not self.stop_threads.is_set(): server_socket.accept()` —
the accept loop keeps accepting exactly while `stop_threads` is
unset. -/
def acceptLoopAccepting (s : CCState) : Bool := !s.stop_threads

/-- Interleavable events on the shared control-center state: session
start, session stop, one sensor-side relay cycle, and one
actuator-side acknowledgement arriving outside any wait window. -/
inductive Event
  | start
  | stop
  | cycle (pkt : SensorPacket) (arrivals : List Ack) (t4 : ℚ)
  | ackArrives (a : Ack)
deriving Repr, DecidableEq

/-- Effect of one event on the state. -/
def step (s : CCState) (e : Event) : CCState :=
  match e with
  | .start => startSession s
  | .stop => (stopSession s).1
  | .cycle pkt arrivals t4 => relayCycle s pkt arrivals t4
  | .ackArrives a => handleActuatorPacket s a

/-- Run a list of events. -/
def run (s : CCState) (es : List Event) : CCState := es.foldl step s

/-- Sequence numbers of the session log, in order. -/
def seqNums (rows : List LogRow) : List ℕ := rows.map LogRow.packet_num

/-! ## Helper lemmas -/

theorem foldl_publish (q : List Ack) (l : List Ack) :
    l.foldl publish q = q ++ l := by
  induction l generalizing q with
  | nil => simp
  | cons a t ih => simp [publish, ih]

theorem hapFoldl_queue (s : CCState) (l : List Ack) :
    (l.foldl handleActuatorPacket s).response_queue
      = s.response_queue ++ l := by
  induction l generalizing s with
  | nil => simp
  | cons a t ih => simp [handleActuatorPacket, publish, ih]

theorem hapFoldl_log (s : CCState) (l : List Ack) :
    (l.foldl handleActuatorPacket s).log_data = s.log_data := by
  induction l generalizing s with
  | nil => rfl
  | cons a t ih => simpa [handleActuatorPacket] using ih _

theorem hapFoldl_lat (s : CCState) (l : List Ack) :
    (l.foldl handleActuatorPacket s).latencies_ms = s.latencies_ms := by
  induction l generalizing s with
  | nil => rfl
  | cons a t ih => simpa [handleActuatorPacket] using ih _

theorem stopSession_fst_log (s : CCState) :
    (stopSession s).1.log_data = s.log_data := by
  unfold stopSession; split <;> rfl

theorem stopSession_fst_lat (s : CCState) :
    (stopSession s).1.latencies_ms = s.latencies_ms := by
  unfold stopSession; split <;> rfl

theorem stopSession_fst_inactive (s : CCState) :
    (stopSession s).1.is_session_active = false := by
  unfold stopSession
  split
  · next h => simpa using h
  · rfl

/-- The log of a relay cycle is either unchanged or extended by one row
whose sequence number is the previous record count plus one, in which
case exactly one latency sample with the row's delay is appended
too. -/
theorem relayCycle_log_cases (s : CCState) (pkt : SensorPacket)
    (arrivals : List Ack) (t4 : ℚ) :
    ((relayCycle s pkt arrivals t4).log_data = s.log_data
      ∧ (relayCycle s pkt arrivals t4).latencies_ms = s.latencies_ms)
    ∨ ∃ row : LogRow, row.packet_num = s.log_data.length + 1
        ∧ (relayCycle s pkt arrivals t4).log_data = s.log_data ++ [row]
        ∧ (relayCycle s pkt arrivals t4).latencies_ms
            = s.latencies_ms ++ [row.delay_ms] := by
  unfold relayCycle
  split
  · rcases hq : (arrivals.foldl handleActuatorPacket s).response_queue with
      _ | ⟨a, rest⟩
    · left
      simp [awaitNext, hq, hapFoldl_log, hapFoldl_lat]
    · right
      refine ⟨mkLogRow pkt a
          (latencyEstimator pkt.timestamp a.t2 a.t3 t4)
          (s.log_data.length + 1), rfl, ?_, ?_⟩
      · simp [awaitNext, hq, hapFoldl_log]
      · simp [awaitNext, hq, hapFoldl_log, hapFoldl_lat, mkLogRow]
  · left; exact ⟨rfl, rfl⟩

/-- The two log invariants maintained from session start onwards:
sequence numbers are exactly `1, 2, …, length`, and the raw delay
samples are exactly the rows' delays, in order. -/
def LogInvariant (s : CCState) : Prop :=
  seqNums s.log_data = List.range' 1 s.log_data.length
    ∧ s.latencies_ms = s.log_data.map LogRow.delay_ms

theorem step_preserves_logInvariant (s : CCState) (e : Event)
    (h : LogInvariant s) : LogInvariant (step s e) := by
  obtain ⟨hseq, hlat⟩ := h
  cases e with
  | start => constructor <;> simp [step, startSession, seqNums]
  | stop =>
      constructor
      · simpa [step, stopSession_fst_log] using hseq
      · simpa [step, stopSession_fst_log, stopSession_fst_lat] using hlat
  | cycle pkt arrivals t4 =>
      rcases relayCycle_log_cases s pkt arrivals t4 with
        ⟨hl, hm⟩ | ⟨row, hn, hl, hm⟩
      · constructor
        · simpa [step, hl] using hseq
        · simp [step, hl, hm, hlat]
      · constructor
        · simp only [step, hl, seqNums, List.map_append, List.map_cons,
            List.map_nil, List.length_append, List.length_cons,
            List.length_nil]
          rw [seqNums] at hseq
          simp [hseq, hn, List.range'_concat, Nat.add_comm]
        · simp [step, hl, hm, hlat]
  | ackArrives a =>
      constructor
      · simpa [step, handleActuatorPacket] using hseq
      · simpa [step, handleActuatorPacket] using hlat

theorem run_preserves_logInvariant (s : CCState) (es : List Event)
    (h : LogInvariant s) : LogInvariant (run s es) := by
  induction es generalizing s with
  | nil => exact h
  | cons e t ih => exact ih _ (step_preserves_logInvariant s e h)

theorem startSession_logInvariant (s : CCState) :
    LogInvariant (startSession s) := by
  constructor <;> simp [startSession, seqNums]

theorem run_startSession_logInvariant (s : CCState) (es : List Event) :
    LogInvariant (run (startSession s) es) :=
  run_preserves_logInvariant _ _ (startSession_logInvariant s)

theorem stopSession_fst_sensor_conn (s : CCState) :
    (stopSession s).1.sensor_conn = s.sensor_conn := by
  unfold stopSession; split <;> rfl

theorem stopSession_fst_actuator_conn (s : CCState) :
    (stopSession s).1.actuator_conn = s.actuator_conn := by
  unfold stopSession; split <;> rfl

theorem stopSession_fst_stop_threads (s : CCState) :
    (stopSession s).1.stop_threads = s.stop_threads := by
  unfold stopSession; split <;> rfl

theorem stopSession_fst_closed_conns (s : CCState) :
    (stopSession s).1.closed_conns = s.closed_conns := by
  unfold stopSession; split <;> rfl

theorem stopSession_noop_of_inactive (s : CCState)
    (h : s.is_session_active = false) : stopSession s = (s, none) := by
  simp [stopSession, h]

/-! ## Concrete states used by witnesses -/

/-- A state with no active session and no peers. -/
def idleState : CCState :=
  { is_session_active := false, log_data := [], latencies_ms := [],
    response_queue := [], sensor_conn := none, actuator_conn := none,
    gps_actuator := none, worksheet := true, stop_threads := false,
    closed_conns := [] }

/-- A state with an active session, both peers registered, empty log
and empty correlator queue. -/
def liveState : CCState :=
  { is_session_active := true, log_data := [], latencies_ms := [],
    response_queue := [], sensor_conn := some 1, actuator_conn := some 2,
    gps_actuator := none, worksheet := true, stop_threads := false,
    closed_conns := [] }

/-- A proper-status telemetry packet sent at time 0 with voltage 1. -/
def samplePacket : SensorPacket := ⟨1, "Proper", none, 0⟩

/-- An acknowledgement with `t2 = t3 = 1`, applied voltage 1. -/
def sampleAck : Ack := ⟨1, 1, some 1, none⟩

/-! ## Claims -/

/-- C1: The Latency Estimator is a pure function of the four timestamps
computing `offset = ((t2 - t1) + (t3 - t4)) / 2`,
`corrected_t2 = t2 - offset`, `one_way_delay = corrected_t2 - t1`, with
no clamping or validation: for every input the delay equals exactly
this formula (equivalently `((t2 - t1) + (t4 - t3)) / 2`); on
`t1 = 100.000, t2 = 100.050, t3 = 100.060, t4 = 100.120` seconds it
yields `offset = -0.005`, `corrected_t2 = 100.055`, `delay = 0.055`;
and a negative delay (here `-1` at `t1 = 1, t2 = 0, t3 = 1, t4 = 0`) is
returned unclipped. -/
theorem latencyEstimator_pure_formula (t1 t2 t3 t4 : ℚ) :
    (latencyEstimator t1 t2 t3 t4).offset_sec = ((t2 - t1) + (t3 - t4)) / 2
    ∧ (latencyEstimator t1 t2 t3 t4).corrected_t2_sec
        = t2 - ((t2 - t1) + (t3 - t4)) / 2
    ∧ (latencyEstimator t1 t2 t3 t4).true_latency_sec
        = (latencyEstimator t1 t2 t3 t4).corrected_t2_sec - t1
    ∧ (latencyEstimator t1 t2 t3 t4).true_latency_sec
        = ((t2 - t1) + (t4 - t3)) / 2
    ∧ latencyEstimator 100 (2001/20) (5003/50) (2503/25)
        = ⟨-(1/200), 20011/200, 11/200⟩
    ∧ (latencyEstimator 1 0 1 0).true_latency_sec = -1 := by
  refine ⟨rfl, rfl, rfl, ?_, ?_, by norm_num [latencyEstimator]⟩
  · simp only [latencyEstimator]
    ring
  · simp only [latencyEstimator, LatencyEstimate.mk.injEq]
    norm_num

/-- C3: The Response Correlator is a FIFO with a bounded wait:
`publish` (called by the actuator reader on every parsed
acknowledgement) enqueues at the back without dropping; `awaitNext`,
with the deadline fixed at 2000 ms, removes and returns the oldest
element when one is present and otherwise signals a timeout, leaving
the rest of the queue unchanged. -/
theorem correlator_fifo (s : CCState) (q rest : List Ack) (a : Ack) :
    awaitDeadlineSec * 1000 = 2000
    ∧ (handleActuatorPacket s a).response_queue = publish s.response_queue a
    ∧ publish q a = q ++ [a]
    ∧ (publish q a).length = q.length + 1
    ∧ awaitNext (a :: rest) = (some a, rest)
    ∧ awaitNext ([] : List Ack) = (none, []) := by
  refine ⟨by norm_num [awaitDeadlineSec], rfl, rfl, by simp [publish],
    rfl, rfl⟩

/-- C4: A telemetry packet received while the session is inactive, or
while no Actuation peer is registered, leaves the state — in
particular the session log, the raw delay samples, and hence the
sequence counter — exactly unchanged. -/
theorem relayCycle_idle_noop (s : CCState) (pkt : SensorPacket)
    (arrivals : List Ack) (t4 : ℚ)
    (h : s.is_session_active = false ∨ s.actuator_conn = none) :
    relayCycle s pkt arrivals t4 = s := by
  unfold relayCycle
  rcases h with h | h <;> simp [h]

/-- Witness for C4 at a concrete idle state. -/
theorem relayCycle_idle_noop_witness :
    (idleState.is_session_active = false ∨ idleState.actuator_conn = none)
    ∧ relayCycle idleState samplePacket [sampleAck] 2 = idleState :=
  ⟨Or.inl rfl,
   relayCycle_idle_noop idleState samplePacket [sampleAck] 2 (Or.inl rfl)⟩

/-- C7: `start_session` resets the logging state: the active flag is
armed, the record list is empty and the raw delay-sample list is
empty, whatever had accumulated before. -/
theorem startSession_resets (s : CCState) :
    (startSession s).is_session_active = true
    ∧ (startSession s).log_data = []
    ∧ (startSession s).latencies_ms = [] :=
  ⟨rfl, rfl, rfl⟩

/-- C8: `stop_session` on an already-inactive session is a no-op; the
first stop disarms the flag (changing nothing else) and hands the
state to `generate_final_report`, and a second consecutive stop leaves
everything unchanged and produces no report. -/
theorem stopSession_idempotent (s : CCState) :
    (stopSession s).1.log_data = s.log_data
    ∧ (stopSession s).1.latencies_ms = s.latencies_ms
    ∧ (s.is_session_active = false → stopSession s = (s, none))
    ∧ (s.is_session_active = true →
        (stopSession s).1 = { s with is_session_active := false }
        ∧ (stopSession s).2
            = generateFinalReport { s with is_session_active := false })
    ∧ stopSession (stopSession s).1 = ((stopSession s).1, none) := by
  refine ⟨stopSession_fst_log s, stopSession_fst_lat s,
    stopSession_noop_of_inactive s, ?_,
    stopSession_noop_of_inactive _ (stopSession_fst_inactive s)⟩
  intro h
  constructor <;> simp [stopSession, h]

/-- Witness for C8 at a concrete inactive state. -/
theorem stopSession_idempotent_witness :
    idleState.is_session_active = false
    ∧ stopSession idleState = (idleState, none) :=
  ⟨rfl, (stopSession_idempotent idleState).2.2.1 rfl⟩

/-- C9 (implicit): `start_session` also empties the Response
Correlator's queue, so acknowledgements published before the start can
never be matched afterwards: the first `awaitNext` of a new session
sees exactly the acknowledgements published after `start()`. -/
theorem startSession_clears_correlator (s : CCState) (acks : List Ack) :
    (startSession s).response_queue = []
    ∧ acks.foldl publish (startSession s).response_queue = acks
    ∧ awaitNext (acks.foldl publish (startSession s).response_queue)
        = (acks.head?, acks.tail) := by
  refine ⟨rfl, by simp [foldl_publish, startSession], ?_⟩
  rw [foldl_publish]
  cases acks <;> simp [awaitNext, startSession]

/-- C2: Sequence numbers are assigned densely: after any interleaving
of events following a session start the log's sequence numbers are
exactly `1, 2, …, length`; a relay cycle that times out (no
acknowledgement queued or arriving) appends no record and no sample,
so it consumes no number; and a successfully correlated cycle appends
exactly one record whose sequence number is the prior record count
plus one. -/
theorem seq_dense (s0 : CCState) (events : List Event) (s : CCState)
    (pkt : SensorPacket) (arrivals : List Ack) (t4 : ℚ) (a : Ack)
    (q' : List Ack) :
    seqNums (run (startSession s0) events).log_data
      = List.range' 1 (run (startSession s0) events).log_data.length
    ∧ (s.is_session_active = true → s.actuator_conn.isSome = true →
        s.response_queue ++ arrivals = [] →
        (relayCycle s pkt arrivals t4).log_data = s.log_data
        ∧ (relayCycle s pkt arrivals t4).latencies_ms = s.latencies_ms)
    ∧ (s.is_session_active = true → s.actuator_conn.isSome = true →
        s.response_queue ++ arrivals = a :: q' →
        (relayCycle s pkt arrivals t4).log_data
          = s.log_data ++ [mkLogRow pkt a
              (latencyEstimator pkt.timestamp a.t2 a.t3 t4)
              (s.log_data.length + 1)]) := by
  refine ⟨(run_startSession_logInvariant s0 events).1, ?_, ?_⟩
  · intro hact hopt hq
    have h1 : (arrivals.foldl handleActuatorPacket s).response_queue = [] := by
      rw [hapFoldl_queue]; exact hq
    constructor <;>
      simp [relayCycle, hact, hopt, awaitNext, h1, hapFoldl_log, hapFoldl_lat]
  · intro hact hopt hq
    have h1 : (arrivals.foldl handleActuatorPacket s).response_queue
        = a :: q' := by
      rw [hapFoldl_queue]; exact hq
    simp [relayCycle, hact, hopt, awaitNext, h1, hapFoldl_log]

/-- Witness for C2: a timed-out cycle appends nothing; a successful
cycle at an empty log gets sequence number 1. -/
theorem seq_dense_witness :
    ((relayCycle liveState samplePacket [] 0).log_data = liveState.log_data
      ∧ (relayCycle liveState samplePacket [] 0).latencies_ms
          = liveState.latencies_ms)
    ∧ (relayCycle liveState samplePacket [sampleAck] 2).log_data
        = liveState.log_data ++ [mkLogRow samplePacket sampleAck
            (latencyEstimator samplePacket.timestamp sampleAck.t2
              sampleAck.t3 2)
            (liveState.log_data.length + 1)] :=
  ⟨(seq_dense liveState [] liveState samplePacket [] 0 sampleAck
      []).2.1 rfl rfl rfl,
   (seq_dense liveState [] liveState samplePacket [sampleAck] 2 sampleAck
      []).2.2 rfl rfl rfl⟩

/-- C10 (implicit): the session log and the raw delay-sample list grow
in lockstep from every session start — the samples are exactly the
logged rows' delays in order — and when `stop()` produces a report its
rows are exactly the log and its mean is the mean over exactly the
logged records' delays. -/
theorem log_lockstep_mean (s0 : CCState) (events : List Event)
    (r : Report) :
    (run (startSession s0) events).latencies_ms
      = (run (startSession s0) events).log_data.map LogRow.delay_ms
    ∧ ((stopSession (run (startSession s0) events)).2 = some r →
        r.rows = (run (startSession s0) events).log_data
        ∧ r.avg_latency_ms
            = averageLatency
                ((run (startSession s0) events).log_data.map
                  LogRow.delay_ms)) := by
  obtain ⟨-, hinv⟩ := run_startSession_logInvariant s0 events
  refine ⟨hinv, ?_⟩
  intro h
  cases hact : (run (startSession s0) events).is_session_active with
  | false =>
      rw [stopSession_noop_of_inactive _ hact] at h
      exact absurd h (by simp)
  | true =>
      have h2 : generateFinalReport
          { run (startSession s0) events with is_session_active := false }
            = some r := by
        rw [stopSession, if_neg (by simp [hact])] at h
        exact h
      rw [generateFinalReport] at h2
      split at h2
      · exact absurd h2 (by simp)
      · simp only [Option.some.injEq] at h2
        subst h2
        exact ⟨rfl, congrArg averageLatency hinv⟩

/-- Events of the C10 witness: one successfully correlated cycle. -/
def witnessEvents : List Event := [Event.cycle samplePacket [sampleAck] 2]

/-- The report the C10 witness run produces: one row, delay 1000 ms. -/
def witnessReport : Report :=
  ⟨1000, [⟨1, 0, 1, 1000, .proper 1, "Proper", some 1, none⟩]⟩

/-- Witness for C10 on a concrete one-cycle run. -/
theorem log_lockstep_mean_witness :
    (stopSession (run (startSession liveState) witnessEvents)).2
        = some witnessReport
    ∧ witnessReport.rows
        = (run (startSession liveState) witnessEvents).log_data
    ∧ witnessReport.avg_latency_ms
        = averageLatency
            ((run (startSession liveState) witnessEvents).log_data.map
              LogRow.delay_ms) := by
  have h : (stopSession (run (startSession liveState) witnessEvents)).2
      = some witnessReport := by
    simp [run, step, witnessEvents, startSession, liveState, relayCycle,
      handleActuatorPacket, publish, awaitNext, stopSession,
      generateFinalReport, averageLatency, mkLogRow, witnessReport,
      samplePacket, sampleAck, latencyEstimator]
    norm_num
  exact ⟨h, (log_lockstep_mean liveState witnessEvents witnessReport).2 h⟩

/-- A state in which connection 1 occupies the Measurement role while
a session is active — the situation just before a replacement accept. -/
def replacedState : CCState :=
  { is_session_active := true, log_data := [], latencies_ms := [],
    response_queue := [], sensor_conn := some 1, actuator_conn := some 9,
    gps_actuator := none, worksheet := true, stop_threads := false,
    closed_conns := [] }

/-- Counterexample to C5: connection 2 replaces connection 1 in the
Measurement slot, and then the *prior* handler's teardown (the
`finally` block closing and clearing `self.sensor_conn`) closes the
new connection 2 and clears its registry entry — the claim said the
prior connection's cleanup must not do that. -/
theorem stale_teardown_counterexample :
    (registerSensor replacedState 2).sensor_conn = some 2
    ∧ (sensorFinally (registerSensor replacedState 2)).1.sensor_conn
        ≠ some 2
    ∧ 2 ∈ (sensorFinally (registerSensor replacedState 2)).1.closed_conns
    ∧ (sensorFinally
        (registerSensor replacedState 2)).1.is_session_active = false := by
  refine ⟨rfl, ?_, ?_, ?_⟩ <;>
    simp [sensorFinally, registerSensor, replacedState, stopSession,
      closeConn, generateFinalReport]

/-- C5 as amended: a new accept for an occupied role does replace the
registry entry, but the prior connection's teardown unconditionally
closes and clears whichever connection is *currently* registered for
the role (and force-stops the session) — so after a replacement the
stale handler's cleanup closes the new connection and empties the
role's entry. -/
theorem role_replacement_amended (s : CCState) (c : ℕ) :
    (registerSensor s c).sensor_conn = some c
    ∧ (sensorFinally (registerSensor s c)).1.sensor_conn = none
    ∧ c ∈ (sensorFinally (registerSensor s c)).1.closed_conns
    ∧ (sensorFinally (registerSensor s c)).1.is_session_active = false := by
  refine ⟨rfl, ?_, ?_, ?_⟩
  · rw [sensorFinally, stopSession_fst_sensor_conn]
  · rw [sensorFinally, stopSession_fst_closed_conns]
    simp [registerSensor, closeConn]
  · rw [sensorFinally, stopSession_fst_inactive]

/-- C6: Losing either peer connection (orderly close, reset, or a
malformed payload) terminates that connection's reader loop (all
subsequent reads are ignored); the `finally` cleanup then clears that
role's registry entry and stops the session through the normal
`stop_session` path (which produces the report), leaving the
process's accept loop (`stop_threads`) untouched and still
accepting. -/
theorem disconnect_cleanup (s : CCState) (c : ℕ)
    (rest : List SensorRead) (arest : List ActuatorRead) :
    sensorReaderLoop s (SensorRead.closed :: rest) = s
    ∧ sensorReaderLoop s (SensorRead.connError :: rest) = s
    ∧ sensorReaderLoop s (SensorRead.malformed :: rest) = s
    ∧ actuatorReaderLoop s (ActuatorRead.closed :: arest) = s
    ∧ actuatorReaderLoop s (ActuatorRead.connError :: arest) = s
    ∧ actuatorReaderLoop s (ActuatorRead.malformed :: arest) = s
    ∧ (sensorFinally s).1.sensor_conn = none
    ∧ (sensorFinally s).1.is_session_active = false
    ∧ sensorFinally s
        = stopSession { s with
            sensor_conn := none
            closed_conns := closeConn s.sensor_conn s.closed_conns }
    ∧ (actuatorFinally s).1.actuator_conn = none
    ∧ (actuatorFinally s).1.is_session_active = false
    ∧ actuatorFinally s
        = stopSession { s with
            actuator_conn := none
            closed_conns := closeConn s.actuator_conn s.closed_conns }
    ∧ acceptLoopAccepting (handleSensorPi s c (SensorRead.closed :: rest)).1
        = acceptLoopAccepting s
    ∧ acceptLoopAccepting
        (handleActuatorPi s c (ActuatorRead.closed :: arest)).1
        = acceptLoopAccepting s := by
  refine ⟨rfl, rfl, rfl, rfl, rfl, rfl, ?_, ?_, rfl, ?_, ?_, rfl, ?_, ?_⟩
  · rw [sensorFinally, stopSession_fst_sensor_conn]
  · rw [sensorFinally, stopSession_fst_inactive]
  · rw [actuatorFinally, stopSession_fst_actuator_conn]
  · rw [actuatorFinally, stopSession_fst_inactive]
  · simp [handleSensorPi, sensorReaderLoop, sensorFinally,
      acceptLoopAccepting, registerSensor, stopSession_fst_stop_threads]
  · simp [handleActuatorPi, actuatorReaderLoop, actuatorFinally,
      acceptLoopAccepting, registerActuator, stopSession_fst_stop_threads]

end V2V
